import Mathlib

/-!
# Transposed-convolution descriptor negotiation

A shallow embedding of `ideep/operators/deconv.hpp`:

* the shape derivation of `convolution_transpose_forward::expected_weights_desc`
  (weight dims as handed to negotiation, `ic`, `oc`, `kernel_size`, `x_dims`, `y_dims`);
* the query descriptors built by `convolution_transpose_forward::get_primitive_desc`,
  with the backend's primitive-descriptor constructor as a parameter;
* the descriptors built by `convolution_transpose_backward_data::compute`;
* the weight-gradient descriptor of `convolution_transpose_backward_weights::compute_impl`
  and the step that recovers the caller-visible shape.

Extents are `dnnl` 64-bit signed integers in the source.  The shape derivation is embedded
twice: over the mathematical integers (`expected_weights_dims`, `valid_x_dim`, `out_size`,
`expected_weights_shapes`), which is what the source computes as long as no operation
overflows, and with the arithmetic of `int64_t`, every result reduced to its
two's-complement value (`expected_weights_dims_i64`, `valid_x_dim_i64`, `out_size_i64`,
`expected_weights_shapes_i64`).  C++ integer division is `Int.tdiv` (truncation towards
zero).  Every `operator[]` of the source is a checked access here and a division is checked:
a result `none` means that the source would index out of range or that the division
faults.
-/

namespace ideep

/-- Shape vector, `ideep::dims`. -/
abbrev dims := List Int

/-- Subtraction of `size_t` values, as in `dims_in[ndims - 3]`: it is only meaningful
when it does not wrap around. -/
def size_sub (n k : Nat) : Option Nat :=
  if k ≤ n then some (n - k) else none

/-- C++ integer division `a / b`: truncating, undefined for a zero divisor. -/
def checked_div (a b : Int) : Option Int :=
  if b = 0 then none else some (Int.tdiv a b)

/-- Value that a mathematical integer has as an `int64_t` (two's complement). -/
def wrap64 (x : Int) : Int :=
  (x + 9223372036854775808) % 18446744073709551616 - 9223372036854775808

/-- The integer is representable as an `int64_t`. -/
def fits64 (x : Int) : Prop :=
  -9223372036854775808 ≤ x ∧ x < 9223372036854775808

instance (x : Int) : Decidable (fits64 x) := by
  unfold fits64
  infer_instance

/-- Addition of `int64_t` values. -/
def add64 (a b : Int) : Int := wrap64 (a + b)

/-- Subtraction of `int64_t` values. -/
def sub64 (a b : Int) : Int := wrap64 (a - b)

/-- Multiplication of `int64_t` values. -/
def mul64 (a b : Int) : Int := wrap64 (a * b)

/-- Division of `int64_t` values: truncating; it faults for a zero divisor and for the
quotient of the least value by `-1`, which is not representable. -/
def div64 (a b : Int) : Option Int :=
  if b = 0 then none
  else if a = -9223372036854775808 ∧ b = -1 then none
  else some (Int.tdiv a b)

/-- Exchange of two elements, `std::swap(v[i], v[j])`, with both accesses checked. -/
def swap_elems {α : Type} (v : List α) (i j : Nat) : Option (List α) := do
  let a ← v[i]?
  let b ← v[j]?
  pure ((v.set i b).set j a)

/-- Loop `for (i = lo; i < lo + n; ++i) acc.push_back(f(i))` with a checked body. -/
def push_back_loop (f : Nat → Option Int) : Nat → Nat → dims → Option dims
  | _, 0, acc => some acc
  | i, n + 1, acc => do
    let v ← f i
    push_back_loop f (i + 1) n (acc ++ [v])

/-- Element data types that the source distinguishes (`s8`, `u8`, `s32`) and some others. -/
inductive data_type where
  | undef
  | f16
  | bf16
  | f32
  | s32
  | s8
  | u8
deriving DecidableEq

/-- Layout specifier of a descriptor: the tags the source names (`any`, `nhwc`, `ndhwc`),
the default row-major layout, the tag of the empty descriptor, and any other concrete
(backend-chosen) layout. -/
inductive tag where
  | undef
  | any
  | plain
  | nhwc
  | ndhwc
  | other (code : Nat)
deriving DecidableEq

namespace utils

/-- Modelled from the spec: `utils::group_dims` is not part of this file.  Section 4.2:
"split the channel axis into (groups, channels/groups)".  The group count is put in front
and the leading (input-channel) axis is divided by it, which is the `[g, i/g, o, ...]`
view that the comments of the source name before the swap to `[g, o, i/g, ...]`. -/
def group_dims (adims : dims) (groups : Int) : Option dims := do
  let c ← adims[0]?
  let q ← checked_div c groups
  pure (groups :: adims.set 0 q)

/-- Modelled from the spec: `utils::group_dims` as above, with the division of `int64_t`. -/
def group_dims_i64 (adims : dims) (groups : Int) : Option dims := do
  let c ← adims[0]?
  let q ← div64 c groups
  pure (groups :: adims.set 0 q)

end utils

namespace tensor

/-- Modelled from the spec: `tensor::desc` is declared outside this file.  Section 3: a
descriptor is a shape, an element data type and a layout specifier that is a concrete
layout or unconstrained; a grouped weight descriptor also carries its group count
(`g = 1` when it is not grouped). -/
structure desc where
  internal_dims : dims
  dtype : data_type
  layout : tag
  g : Int
deriving DecidableEq

namespace desc

/-- Modelled from the spec: the empty descriptor `tensor::desc()`. -/
def empty : desc := ⟨[], data_type.undef, tag.undef, 1⟩

/-- Modelled from the spec: `tensor::desc(dims, dtype, tag)`. -/
def of_dims_tag (adims : dims) (dtype : data_type) (t : tag) : desc := ⟨adims, dtype, t, 1⟩

/-- Modelled from the spec: `tensor::desc(other, groups)`, which embeds the group count
into a descriptor. -/
def with_groups (d : desc) (groups : Int) : desc := { d with g := groups }

/-- Modelled from the spec: `get_data_type`. -/
def get_data_type (d : desc) : data_type := d.dtype

/-- Modelled from the spec: `is_nhwc`, the descriptor has the concrete 2-D-spatial
channel-last layout. -/
def is_nhwc (d : desc) : Bool := decide (d.layout = tag.nhwc)

/-- Modelled from the spec: `is_ndhwc`, the descriptor has the concrete 3-D-spatial
channel-last layout. -/
def is_ndhwc (d : desc) : Bool := decide (d.layout = tag.ndhwc)

/-- Modelled from the spec: `to_format(tag)`, same shape and data type, the given layout. -/
def to_format (d : desc) (t : tag) : desc := { d with layout := t }

/-- Modelled from the spec: `to_format_any`, same shape and data type, layout left to the
backend. -/
def to_format_any (d : desc) : desc := { d with layout := tag.any }

/-- Modelled from the spec: `to_grouped(groups)`, the grouped-weight view of section 4.2,
whose shape is `utils::group_dims` of the shape and which records the group count. -/
def to_grouped (d : desc) (groups : Int) : Option desc := do
  let gd ← utils.group_dims d.internal_dims groups
  pure { d with internal_dims := gd, g := groups }

/-- Modelled from the spec: `transpose(dim0, dim1)` (and the mutator `transpose_`), the
axis transposition of section 6: the two axes of the shape are exchanged. -/
def transpose (d : desc) (dim0 dim1 : Nat) : Option desc := do
  let td ← swap_elems d.internal_dims dim0 dim1
  pure { d with internal_dims := td }

/-- Modelled from the spec: `get_dims`, the caller-visible shape.  Section 4.2, inverse
direction: the group axis is merged back into the channel axis that follows it when the
descriptor is grouped. -/
def get_dims (d : desc) : dims :=
  if d.g > 1 then
    match d.internal_dims with
    | g0 :: c :: rest => (g0 * c) :: rest
    | other => other
  else d.internal_dims

end desc

/-- Position of an element after `transpose(dim0, dim1)`: its multi-index with the two
coordinates exchanged. -/
def transpose_index (idx : List Nat) (dim0 dim1 : Nat) : Option (List Nat) :=
  swap_elems idx dim0 dim1

end tensor

open tensor

/-- Arguments that a deconvolution primitive descriptor is constructed from (the braced
list passed to `primitive_desc`); a bias descriptor is passed only `with_bias`. -/
structure deconv_args where
  src_desc : desc
  weights_desc : desc
  bias_desc : Option desc
  dst_desc : desc
  strides : dims
  dilates : dims
  padding_l : dims
  padding_r : dims
deriving DecidableEq

/-- Modelled from the spec: the error kinds of section 7, with which a negotiation can
terminate. -/
inductive error where
  | InvalidShape
  | UnsupportedLayout
  | BackendExecutionFailure
deriving DecidableEq

/-- Modelled from the spec: the plan (primitive descriptor) of section 3, which exposes the
concrete descriptor that each operand and the scratchpad must have. -/
structure plan where
  src_desc : desc
  weights_desc : desc
  bias_desc : Option desc
  dst_desc : desc
  scratchpad_desc : desc
deriving DecidableEq

/-- The constructor `primitive_desc(args, attr, engine)` of the backend runtime, which
returns a plan or throws.  It is external to this code and is a parameter of the model. -/
abbrev backend := deconv_args → Except error plan

namespace convolution_transpose_forward

/-- Local query descriptors of `get_primitive_desc` (lines 195-202). -/
structure desc_queries where
  format_tag : tag
  src_desc_query : desc
  weights_desc_query : desc
  bias_desc_query : desc
  dst_desc_query : desc
deriving DecidableEq

/-- Lines 195-202 of `get_primitive_desc`. -/
def get_desc_queries (with_bias : Bool) (src_desc weights_desc bias_desc dst_desc : desc) :
    desc_queries :=
  let is_nhwc := src_desc.is_nhwc || weights_desc.is_nhwc
  let is_ndhwc := src_desc.is_ndhwc || weights_desc.is_ndhwc
  let format_tag := if is_nhwc then tag.nhwc else (if is_ndhwc then tag.ndhwc else tag.any)
  { format_tag := format_tag
    src_desc_query := src_desc.to_format format_tag
    weights_desc_query := weights_desc.to_format_any
    bias_desc_query := if with_bias then bias_desc.to_format_any else desc.empty
    dst_desc_query := dst_desc.to_format format_tag }

/-- Lines 195-231 of `get_primitive_desc<with_bias>`: the argument list from which the
backend primitive descriptor is constructed. -/
def get_primitive_desc_args (with_bias : Bool)
    (src_desc weights_desc bias_desc dst_desc : desc)
    (strides dilates padding_l padding_r : dims) : deconv_args :=
  let q := get_desc_queries with_bias src_desc weights_desc bias_desc dst_desc
  { src_desc := q.src_desc_query
    weights_desc := q.weights_desc_query
    bias_desc := if with_bias then some q.bias_desc_query else none
    dst_desc := q.dst_desc_query
    strides := strides
    dilates := dilates
    padding_l := padding_l
    padding_r := padding_r }

/-- Function `get_primitive_desc<with_bias>`: the backend constructor applied to the
argument list; nothing else is evaluated. -/
def get_primitive_desc (primitive_desc : backend) (with_bias : Bool)
    (src_desc weights_desc bias_desc dst_desc : desc)
    (strides dilates padding_l padding_r : dims) : Except error plan :=
  primitive_desc (get_primitive_desc_args with_bias src_desc weights_desc bias_desc dst_desc
    strides dilates padding_l padding_r)

/-- Values derived from the weights in lines 87-108 of `expected_weights_desc`. -/
structure weights_info where
  dims_in : dims
  ic : Int
  oc : Int
  kernel_size : dims
deriving DecidableEq

/-- Lines 87-108 of `expected_weights_desc`: the weight dims handed to negotiation
(`weights_dims_g` after the swap, read back as `dims_in`), the channel counts and the
kernel extents. -/
def expected_weights_dims (weights_dims : dims) (groups : Int) : Option weights_info := do
  let src_size := weights_dims.length
  let grouped : Bool := decide (groups > 1)
  let gi : Nat := if grouped then 1 else 0
  let weights_dims_g ← if grouped then utils.group_dims weights_dims groups else some weights_dims
  let dims_in ← swap_elems weights_dims_g (gi + 0) (gi + 1)
  let ndims := dims_in.length
  let g ← if grouped then dims_in[0]? else some 1
  let ic_g ← dims_in[1 + gi]?
  let oc_g ← dims_in[0 + gi]?
  let k3 ← if 5 = src_size then
      (do let i ← size_sub ndims 3
          let k ← dims_in[i]?
          pure [k])
    else some []
  let i2 ← size_sub ndims 2
  let k2 ← dims_in[i2]?
  let i1 ← size_sub ndims 1
  let k1 ← dims_in[i1]?
  pure { dims_in := dims_in, ic := g * ic_g, oc := g * oc_g, kernel_size := k3 ++ [k2, k1] }

/-- The lambda `valid_x_dim` of lines 115-122. -/
def valid_x_dim (padding_l padding_r kernel_size dilates strides : dims) (idx : Nat) :
    Option Int := do
  let pl ← padding_l[idx]?
  let pr ← padding_r[idx]?
  let k ← kernel_size[idx]?
  let dl ← dilates[idx]?
  let s ← strides[idx]?
  let q ← checked_div (pl + pr - (1 + (k - 1) * dl)) s
  pure (max (q + 2) (2 * k))

/-- Body of the loop of lines 139-144: `out_size` for axis `d`. -/
def out_size (x_dims strides kernel_size dilates padding_l padding_r : dims) (d : Nat) :
    Option Int := do
  let x ← x_dims[d]?
  let s ← strides[d - 2]?
  let k ← kernel_size[d - 2]?
  let dl ← dilates[d - 2]?
  let pl ← padding_l[d - 2]?
  let pr ← padding_r[d - 2]?
  pure ((x - 1) * s + (1 + (k - 1) * dl) - pl - pr)

/-- Shapes derived by `expected_weights_desc`. -/
structure derived_shapes where
  info : weights_info
  x_dims : dims
  y_dims : dims
deriving DecidableEq

/-- Lines 87-144 of `expected_weights_desc`: the source shape `x_dims` (placeholder when
`src_dims` is empty, the real one otherwise) and the destination shape `y_dims`. -/
def expected_weights_shapes (weights_dims strides padding_l padding_r dilates : dims)
    (groups : Int) (src_dims : dims) : Option derived_shapes := do
  let src_size := weights_dims.length
  let info ← expected_weights_dims weights_dims groups
  let kernel_size := info.kernel_size
  let xy ← if src_dims.isEmpty then
      (do let vx := valid_x_dim padding_l padding_r kernel_size dilates strides
          if 4 = src_size then
            (do let e0 ← vx 0
                let e1 ← vx 1
                pure ([1, info.ic, e0, e1], [1, info.oc]))
          else
            (do let e0 ← vx 0
                let e1 ← vx 1
                let e2 ← vx 2
                pure ([1, info.ic, e0, e1, e2], [1, info.oc])))
    else
      (do let x ← push_back_loop (fun i => src_dims[i]?) 0 src_size []
          let n ← src_dims[0]?
          pure (x, [n, info.oc]))
  let x_dims : dims := xy.1
  let y_dims ← push_back_loop
    (out_size x_dims strides kernel_size dilates padding_l padding_r) 2 (src_size - 2) xy.2
  pure { info := info, x_dims := x_dims, y_dims := y_dims }

/-- Lines 87-108 of `expected_weights_desc` with the arithmetic of `int64_t`. -/
def expected_weights_dims_i64 (weights_dims : dims) (groups : Int) : Option weights_info := do
  let src_size := weights_dims.length
  let grouped : Bool := decide (groups > 1)
  let gi : Nat := if grouped then 1 else 0
  let weights_dims_g ←
    if grouped then utils.group_dims_i64 weights_dims groups else some weights_dims
  let dims_in ← swap_elems weights_dims_g (gi + 0) (gi + 1)
  let ndims := dims_in.length
  let g ← if grouped then dims_in[0]? else some 1
  let ic_g ← dims_in[1 + gi]?
  let oc_g ← dims_in[0 + gi]?
  let k3 ← if 5 = src_size then
      (do let i ← size_sub ndims 3
          let k ← dims_in[i]?
          pure [k])
    else some []
  let i2 ← size_sub ndims 2
  let k2 ← dims_in[i2]?
  let i1 ← size_sub ndims 1
  let k1 ← dims_in[i1]?
  pure { dims_in := dims_in, ic := mul64 g ic_g, oc := mul64 g oc_g,
         kernel_size := k3 ++ [k2, k1] }

/-- The lambda `valid_x_dim` of lines 115-122 with the arithmetic of `int64_t`. -/
def valid_x_dim_i64 (padding_l padding_r kernel_size dilates strides : dims) (idx : Nat) :
    Option Int := do
  let pl ← padding_l[idx]?
  let pr ← padding_r[idx]?
  let k ← kernel_size[idx]?
  let dl ← dilates[idx]?
  let s ← strides[idx]?
  let q ← div64 (sub64 (add64 pl pr) (add64 1 (mul64 (sub64 k 1) dl))) s
  pure (max (add64 q 2) (mul64 2 k))

/-- Body of the loop of lines 139-144 with the arithmetic of `int64_t`. -/
def out_size_i64 (x_dims strides kernel_size dilates padding_l padding_r : dims) (d : Nat) :
    Option Int := do
  let x ← x_dims[d]?
  let s ← strides[d - 2]?
  let k ← kernel_size[d - 2]?
  let dl ← dilates[d - 2]?
  let pl ← padding_l[d - 2]?
  let pr ← padding_r[d - 2]?
  pure (sub64 (sub64 (add64 (mul64 (sub64 x 1) s) (add64 1 (mul64 (sub64 k 1) dl))) pl) pr)

/-- Lines 87-144 of `expected_weights_desc` with the arithmetic of `int64_t`. -/
def expected_weights_shapes_i64 (weights_dims strides padding_l padding_r dilates : dims)
    (groups : Int) (src_dims : dims) : Option derived_shapes := do
  let src_size := weights_dims.length
  let info ← expected_weights_dims_i64 weights_dims groups
  let kernel_size := info.kernel_size
  let xy ← if src_dims.isEmpty then
      (do let vx := valid_x_dim_i64 padding_l padding_r kernel_size dilates strides
          if 4 = src_size then
            (do let e0 ← vx 0
                let e1 ← vx 1
                pure ([1, info.ic, e0, e1], [1, info.oc]))
          else
            (do let e0 ← vx 0
                let e1 ← vx 1
                let e2 ← vx 2
                pure ([1, info.ic, e0, e1, e2], [1, info.oc])))
    else
      (do let x ← push_back_loop (fun i => src_dims[i]?) 0 src_size []
          let n ← src_dims[0]?
          pure (x, [n, info.oc]))
  let x_dims : dims := xy.1
  let y_dims ← push_back_loop
    (out_size_i64 x_dims strides kernel_size dilates padding_l padding_r) 2 (src_size - 2) xy.2
  pure { info := info, x_dims := x_dims, y_dims := y_dims }

end convolution_transpose_forward

namespace convolution_transpose_backward_data

/-- Descriptors built by `compute` (lines 320-355): the layout tag, the three descriptors
of the backward-data primitive, the argument list from which the forward hint is
negotiated and the one from which the backward-data primitive descriptor is constructed. -/
structure compute_descs where
  format_tag : tag
  diff_dst_desc : desc
  weights_desc : desc
  diff_src_desc : desc
  forward_hints : deconv_args
  pd_args : deconv_args
deriving DecidableEq

/-- Lines 320-355 of `compute`.  The argument `weights_` is the descriptor of
`weights.make_grouped_weights(groups, true)` and `dilates_` the result of
`utils::get_compatible_dilates(dilates)`; neither function is part of this file. -/
def compute (diff_dst weights_ : desc) (diff_src_dims strides padding_l padding_r dilates_ : dims) :
    compute_descs :=
  let is_nhwc := diff_dst.is_nhwc
  let is_ndhwc := diff_dst.is_ndhwc
  let format_tag := if is_nhwc then tag.nhwc else (if is_ndhwc then tag.ndhwc else tag.any)
  let diff_dst_desc := diff_dst.to_format format_tag
  let weights_desc := weights_.to_format_any
  let diff_src_desc := desc.of_dims_tag diff_src_dims diff_dst_desc.get_data_type format_tag
  let forward_hints := convolution_transpose_forward.get_primitive_desc_args false
    diff_src_desc weights_desc desc.empty diff_dst_desc strides dilates_ padding_l padding_r
  { format_tag := format_tag
    diff_dst_desc := diff_dst_desc
    weights_desc := weights_desc
    diff_src_desc := diff_src_desc
    forward_hints := forward_hints
    pd_args :=
      { src_desc := diff_src_desc
        weights_desc := weights_desc
        bias_desc := none
        dst_desc := diff_dst_desc
        strides := strides
        dilates := dilates_
        padding_l := padding_l
        padding_r := padding_r } }

end convolution_transpose_backward_data

namespace convolution_transpose_backward_weights

/-- Lines 449-459 of `compute_impl`: the backend-convention weight-gradient descriptor
built from the framework shape `[i, o, ...]`. -/
def diff_weights_desc (diff_weights_dims : dims) (dtype : data_type) (groups : Int) :
    Option desc :=
  let d := desc.of_dims_tag diff_weights_dims dtype tag.any
  if groups > 1 then
    (d.to_grouped groups).bind (fun gd => gd.transpose 1 2)
  else
    d.transpose 0 1

/-- Lines 519-554 of `compute_impl`: the group count is embedded into the plan's
weight-gradient descriptor, the caller's tensor takes that descriptor over (`feed_from`)
and is transposed in place. -/
def recover_diff_weights (pd_diff_weights_desc : desc) (groups : Int) : Option desc :=
  let expected_diff_weights_desc := desc.with_groups pd_diff_weights_desc groups
  if groups > 1 then
    expected_diff_weights_desc.transpose 1 2
  else
    expected_diff_weights_desc.transpose 0 1

end convolution_transpose_backward_weights

/-! ## Evaluation lemmas and arithmetic facts -/

open tensor convolution_transpose_forward

theorem length_eq_four {α : Type} {l : List α} (h : l.length = 4) :
    ∃ a b c d, l = [a, b, c, d] := by
  match l, h with
  | [a, b, c, d], _ => exact ⟨a, b, c, d, rfl⟩

theorem length_eq_five {α : Type} {l : List α} (h : l.length = 5) :
    ∃ a b c d e, l = [a, b, c, d, e] := by
  match l, h with
  | [a, b, c, d, e], _ => exact ⟨a, b, c, d, e, rfl⟩

/-- Evaluation of lines 87-108 on a weight shape `[i, o, spatial...]` with two or three
spatial axes. -/
theorem expected_weights_dims_eq (i o : Int) (spatial : dims) (groups : Int)
    (hs : spatial.length = 2 ∨ spatial.length = 3) :
    expected_weights_dims (i :: o :: spatial) groups = some
      (if groups > 1 then
        ⟨groups :: o :: Int.tdiv i groups :: spatial, groups * Int.tdiv i groups,
          groups * o, spatial⟩
       else ⟨o :: i :: spatial, i, o, spatial⟩) := by
  rcases hs with hs | hs
  · obtain ⟨k0, k1, rfl⟩ := List.length_eq_two.mp hs
    by_cases hg : groups > 1
    · have hne : groups ≠ 0 := by omega
      simp only [expected_weights_dims, utils.group_dims, checked_div, hg, hne, decide_True,
        if_true, if_false]
      rfl
    · simp only [expected_weights_dims, hg, decide_False, if_false]
      simp [swap_elems, size_sub]
  · obtain ⟨k0, k1, k2, rfl⟩ := List.length_eq_three.mp hs
    by_cases hg : groups > 1
    · have hne : groups ≠ 0 := by omega
      simp only [expected_weights_dims, utils.group_dims, checked_div, hg, hne, decide_True,
        if_true, if_false]
      rfl
    · simp only [expected_weights_dims, hg, decide_False, if_false]
      simp [swap_elems, size_sub]

/-- Evaluation of the shape derivation: real source shape of length at least 4, 2-D
spatial weights.  Only the first four entries of the source shape are read. -/
theorem shapes_real_four (i o k0 k1 s0 s1 pl0 pl1 pr0 pr1 d0 d1 n c h w groups : Int)
    (rest : dims) :
    expected_weights_shapes [i, o, k0, k1] [s0, s1] [pl0, pl1] [pr0, pr1] [d0, d1] groups
        (n :: c :: h :: w :: rest) =
      (expected_weights_dims [i, o, k0, k1] groups).map (fun info =>
        ⟨info, [n, c, h, w],
          [n, info.oc, (h - 1) * s0 + (1 + (k0 - 1) * d0) - pl0 - pr0,
            (w - 1) * s1 + (1 + (k1 - 1) * d1) - pl1 - pr1]⟩) := by
  simp only [expected_weights_shapes, expected_weights_dims_eq i o [k0, k1] groups (Or.inl rfl)]
  by_cases hg : groups > 1
  · simp only [hg, if_true]
    simp [push_back_loop, out_size]
  · simp only [hg, if_false]
    simp [push_back_loop, out_size]

/-- Evaluation of the shape derivation: real source shape of length at least 5, 3-D
spatial weights.  Only the first five entries of the source shape are read. -/
theorem shapes_real_five
    (i o k0 k1 k2 s0 s1 s2 pl0 pl1 pl2 pr0 pr1 pr2 d0 d1 d2 n c t h w groups : Int)
    (rest : dims) :
    expected_weights_shapes [i, o, k0, k1, k2] [s0, s1, s2] [pl0, pl1, pl2] [pr0, pr1, pr2]
        [d0, d1, d2] groups (n :: c :: t :: h :: w :: rest) =
      (expected_weights_dims [i, o, k0, k1, k2] groups).map (fun info =>
        ⟨info, [n, c, t, h, w],
          [n, info.oc, (t - 1) * s0 + (1 + (k0 - 1) * d0) - pl0 - pr0,
            (h - 1) * s1 + (1 + (k1 - 1) * d1) - pl1 - pr1,
            (w - 1) * s2 + (1 + (k2 - 1) * d2) - pl2 - pr2]⟩) := by
  simp only [expected_weights_shapes,
    expected_weights_dims_eq i o [k0, k1, k2] groups (Or.inr rfl)]
  by_cases hg : groups > 1
  · simp only [hg, if_true]
    simp [push_back_loop, out_size]
  · simp only [hg, if_false]
    simp [push_back_loop, out_size]

/-- Evaluation of the shape derivation: placeholder source shape, 2-D spatial. -/
theorem shapes_dummy_four (i o k0 k1 s0 s1 pl0 pl1 pr0 pr1 d0 d1 groups : Int)
    (h0 : s0 ≠ 0) (h1 : s1 ≠ 0) :
    expected_weights_shapes [i, o, k0, k1] [s0, s1] [pl0, pl1] [pr0, pr1] [d0, d1] groups [] =
      (expected_weights_dims [i, o, k0, k1] groups).map (fun info =>
        let e0 := max (Int.tdiv (pl0 + pr0 - (1 + (k0 - 1) * d0)) s0 + 2) (2 * k0)
        let e1 := max (Int.tdiv (pl1 + pr1 - (1 + (k1 - 1) * d1)) s1 + 2) (2 * k1)
        ⟨info, [1, info.ic, e0, e1],
          [1, info.oc, (e0 - 1) * s0 + (1 + (k0 - 1) * d0) - pl0 - pr0,
            (e1 - 1) * s1 + (1 + (k1 - 1) * d1) - pl1 - pr1]⟩) := by
  simp only [expected_weights_shapes, expected_weights_dims_eq i o [k0, k1] groups (Or.inl rfl)]
  by_cases hg : groups > 1
  · simp only [hg, if_true, valid_x_dim, checked_div]
    simp only [List.getElem?_cons_zero, List.getElem?_cons_succ, Option.bind_eq_bind,
      Option.some_bind, h0, h1, if_false]
    rfl
  · simp only [hg, if_false, valid_x_dim, checked_div]
    simp only [List.getElem?_cons_zero, List.getElem?_cons_succ, Option.bind_eq_bind,
      Option.some_bind, h0, h1, if_false]
    rfl

/-- Exchanging the same two elements twice restores the list. -/
theorem swap_elems_twice {α : Type} (v : List α) (i j : Nat) (hi : i < v.length)
    (hj : j < v.length) :
    (swap_elems v i j).bind (fun w => swap_elems w i j) = some v := by
  have h1 : v[i]? = some v[i] := List.getElem?_eq_getElem hi
  have h2 : v[j]? = some v[j] := List.getElem?_eq_getElem hj
  simp only [swap_elems, h1, h2, Option.bind_eq_bind, Option.some_bind, Option.pure_def]
  have hlen : ((v.set i v[j]).set j v[i]).length = v.length := by simp
  have h3 : ((v.set i v[j]).set j v[i])[i]? = some v[j] := by
    by_cases hij : j = i
    · subst hij
      simp [List.getElem?_set, hj]
    · simp [List.getElem?_set, hij, hi]
  have h4 : ((v.set i v[j]).set j v[i])[j]? = some v[i] := by
    simp [List.getElem?_set, hj]
  simp only [h3, h4, Option.some_bind]
  congr 1
  apply List.ext_getElem?
  intro k
  by_cases hkj : j = k
  · subst hkj
    simp [List.getElem?_set, hj]
  · by_cases hki : i = k
    · subst hki
      simp [List.getElem?_set, hkj, hi]
    · simp [List.getElem?_set, hkj, hki]

/-- Evaluation of the shape derivation: placeholder source shape, 3-D spatial. -/
theorem shapes_dummy_five
    (i o k0 k1 k2 s0 s1 s2 pl0 pl1 pl2 pr0 pr1 pr2 d0 d1 d2 groups : Int)
    (h0 : s0 ≠ 0) (h1 : s1 ≠ 0) (h2 : s2 ≠ 0) :
    expected_weights_shapes [i, o, k0, k1, k2] [s0, s1, s2] [pl0, pl1, pl2] [pr0, pr1, pr2]
        [d0, d1, d2] groups [] =
      (expected_weights_dims [i, o, k0, k1, k2] groups).map (fun info =>
        let e0 := max (Int.tdiv (pl0 + pr0 - (1 + (k0 - 1) * d0)) s0 + 2) (2 * k0)
        let e1 := max (Int.tdiv (pl1 + pr1 - (1 + (k1 - 1) * d1)) s1 + 2) (2 * k1)
        let e2 := max (Int.tdiv (pl2 + pr2 - (1 + (k2 - 1) * d2)) s2 + 2) (2 * k2)
        ⟨info, [1, info.ic, e0, e1, e2],
          [1, info.oc, (e0 - 1) * s0 + (1 + (k0 - 1) * d0) - pl0 - pr0,
            (e1 - 1) * s1 + (1 + (k1 - 1) * d1) - pl1 - pr1,
            (e2 - 1) * s2 + (1 + (k2 - 1) * d2) - pl2 - pr2]⟩) := by
  simp only [expected_weights_shapes,
    expected_weights_dims_eq i o [k0, k1, k2] groups (Or.inr rfl)]
  by_cases hg : groups > 1
  · simp only [hg, if_true, valid_x_dim, checked_div]
    simp only [List.getElem?_cons_zero, List.getElem?_cons_succ, Option.bind_eq_bind,
      Option.some_bind, h0, h1, h2, if_false]
    rfl
  · simp only [hg, if_false, valid_x_dim, checked_div]
    simp only [List.getElem?_cons_zero, List.getElem?_cons_succ, Option.bind_eq_bind,
      Option.some_bind, h0, h1, h2, if_false]
    rfl

/-- The output extent computed from the placeholder extent is positive when the stride is. -/
theorem placeholder_out_pos (pl pr k dl s : Int) (hs : 1 ≤ s) :
    0 < (max (Int.tdiv (pl + pr - (1 + (k - 1) * dl)) s + 2) (2 * k) - 1) * s
      + (1 + (k - 1) * dl) - pl - pr := by
  have hlt := Int.lt_tdiv_add_one_mul_self (pl + pr - (1 + (k - 1) * dl)) (show 0 < s by omega)
  have hle : Int.tdiv (pl + pr - (1 + (k - 1) * dl)) s + 1 ≤
      max (Int.tdiv (pl + pr - (1 + (k - 1) * dl)) s + 2) (2 * k) - 1 := by
    have := le_max_left (Int.tdiv (pl + pr - (1 + (k - 1) * dl)) s + 2) (2 * k)
    omega
  have hmul := mul_le_mul_of_nonneg_right hle (show (0 : Int) ≤ s by omega)
  omega

/-- With a positive stride and a positive kernel extent, truncating and flooring the
quotient give the same placeholder extent. -/
theorem placeholder_floor (n k s : Int) (hs : 1 ≤ s) (hk : 1 ≤ k) :
    max (Int.tdiv n s + 2) (2 * k) = max (2 * k) (⌊(n : ℚ) / (s : ℚ)⌋ + 2) := by
  have hfl : ⌊(n : ℚ) / (s : ℚ)⌋ = n / s := by
    have h := Rat.floor_intCast_div_natCast n s.toNat
    have hcast : ((s.toNat : ℤ)) = s := Int.toNat_of_nonneg (by omega)
    have hq : ((s.toNat : ℕ) : ℚ) = (s : ℚ) := by
      rw [← Int.cast_natCast, hcast]
    rw [hq, hcast] at h
    exact h
  rw [hfl, max_comm]
  rcases le_or_lt 0 n with hn | hn
  · rw [Int.tdiv_eq_ediv hn (by omega)]
  · have h1 : n / s < 0 := Int.ediv_neg' hn (by omega)
    have h2 : Int.tdiv n s ≤ 0 := by
      have h3 : 0 ≤ Int.tdiv (-n) s := Int.tdiv_nonneg (by omega) (by omega)
      rw [Int.neg_tdiv] at h3
      omega
    rw [max_eq_left (by omega), max_eq_left (by omega)]

theorem wrap64_of_fits {x : Int} (h : fits64 x) : wrap64 x = x := by
  unfold fits64 at h
  unfold wrap64
  omega

/-- Evaluation of lines 87-108 with the arithmetic of `int64_t`. -/
theorem expected_weights_dims_i64_eq (i o : Int) (spatial : dims) (groups : Int)
    (hs : spatial.length = 2 ∨ spatial.length = 3) :
    expected_weights_dims_i64 (i :: o :: spatial) groups = some
      (if groups > 1 then
        ⟨groups :: o :: Int.tdiv i groups :: spatial, mul64 groups (Int.tdiv i groups),
          mul64 groups o, spatial⟩
       else ⟨o :: i :: spatial, mul64 1 i, mul64 1 o, spatial⟩) := by
  rcases hs with hs | hs
  · obtain ⟨k0, k1, rfl⟩ := List.length_eq_two.mp hs
    by_cases hg : groups > 1
    · have hne : groups ≠ 0 := by omega
      have hm : groups ≠ -1 := by omega
      simp only [expected_weights_dims_i64, utils.group_dims_i64, div64, hg, hne, hm,
        decide_True, if_true, if_false, and_false]
      rfl
    · simp only [expected_weights_dims_i64, hg, decide_False, if_false]
      rfl
  · obtain ⟨k0, k1, k2, rfl⟩ := List.length_eq_three.mp hs
    by_cases hg : groups > 1
    · have hne : groups ≠ 0 := by omega
      have hm : groups ≠ -1 := by omega
      simp only [expected_weights_dims_i64, utils.group_dims_i64, div64, hg, hne, hm,
        decide_True, if_true, if_false, and_false]
      rfl
    · simp only [expected_weights_dims_i64, hg, decide_False, if_false]
      rfl

/-- Evaluation of the `int64_t` shape derivation: placeholder source shape, 2-D spatial. -/
theorem shapes_dummy_four_i64 (i o k0 k1 s0 s1 pl0 pl1 pr0 pr1 d0 d1 groups : Int)
    (h0 : s0 ≠ 0 ∧ s0 ≠ -1) (h1 : s1 ≠ 0 ∧ s1 ≠ -1) :
    expected_weights_shapes_i64 [i, o, k0, k1] [s0, s1] [pl0, pl1] [pr0, pr1] [d0, d1]
        groups [] =
      (expected_weights_dims_i64 [i, o, k0, k1] groups).map (fun info =>
        let e0 := max (add64 (Int.tdiv (sub64 (add64 pl0 pr0)
          (add64 1 (mul64 (sub64 k0 1) d0))) s0) 2) (mul64 2 k0)
        let e1 := max (add64 (Int.tdiv (sub64 (add64 pl1 pr1)
          (add64 1 (mul64 (sub64 k1 1) d1))) s1) 2) (mul64 2 k1)
        ⟨info, [1, info.ic, e0, e1],
          [1, info.oc,
            sub64 (sub64 (add64 (mul64 (sub64 e0 1) s0) (add64 1 (mul64 (sub64 k0 1) d0)))
              pl0) pr0,
            sub64 (sub64 (add64 (mul64 (sub64 e1 1) s1) (add64 1 (mul64 (sub64 k1 1) d1)))
              pl1) pr1]⟩) := by
  obtain ⟨h0a, h0b⟩ := h0
  obtain ⟨h1a, h1b⟩ := h1
  simp only [expected_weights_shapes_i64,
    expected_weights_dims_i64_eq i o [k0, k1] groups (Or.inl rfl)]
  by_cases hg : groups > 1
  · simp only [hg, if_true, valid_x_dim_i64, div64]
    simp only [List.getElem?_cons_zero, List.getElem?_cons_succ, Option.bind_eq_bind,
      Option.some_bind, h0a, h0b, h1a, h1b, if_false, and_false]
    rfl
  · simp only [hg, if_false, valid_x_dim_i64, div64]
    simp only [List.getElem?_cons_zero, List.getElem?_cons_succ, Option.bind_eq_bind,
      Option.some_bind, h0a, h0b, h1a, h1b, if_false, and_false]
    rfl

/-- Evaluation of the `int64_t` shape derivation: placeholder source shape, 3-D spatial. -/
theorem shapes_dummy_five_i64
    (i o k0 k1 k2 s0 s1 s2 pl0 pl1 pl2 pr0 pr1 pr2 d0 d1 d2 groups : Int)
    (h0 : s0 ≠ 0 ∧ s0 ≠ -1) (h1 : s1 ≠ 0 ∧ s1 ≠ -1) (h2 : s2 ≠ 0 ∧ s2 ≠ -1) :
    expected_weights_shapes_i64 [i, o, k0, k1, k2] [s0, s1, s2] [pl0, pl1, pl2]
        [pr0, pr1, pr2] [d0, d1, d2] groups [] =
      (expected_weights_dims_i64 [i, o, k0, k1, k2] groups).map (fun info =>
        let e0 := max (add64 (Int.tdiv (sub64 (add64 pl0 pr0)
          (add64 1 (mul64 (sub64 k0 1) d0))) s0) 2) (mul64 2 k0)
        let e1 := max (add64 (Int.tdiv (sub64 (add64 pl1 pr1)
          (add64 1 (mul64 (sub64 k1 1) d1))) s1) 2) (mul64 2 k1)
        let e2 := max (add64 (Int.tdiv (sub64 (add64 pl2 pr2)
          (add64 1 (mul64 (sub64 k2 1) d2))) s2) 2) (mul64 2 k2)
        ⟨info, [1, info.ic, e0, e1, e2],
          [1, info.oc,
            sub64 (sub64 (add64 (mul64 (sub64 e0 1) s0) (add64 1 (mul64 (sub64 k0 1) d0)))
              pl0) pr0,
            sub64 (sub64 (add64 (mul64 (sub64 e1 1) s1) (add64 1 (mul64 (sub64 k1 1) d1)))
              pl1) pr1,
            sub64 (sub64 (add64 (mul64 (sub64 e2 1) s2) (add64 1 (mul64 (sub64 k2 1) d2)))
              pl2) pr2]⟩) := by
  obtain ⟨h0a, h0b⟩ := h0
  obtain ⟨h1a, h1b⟩ := h1
  obtain ⟨h2a, h2b⟩ := h2
  simp only [expected_weights_shapes_i64,
    expected_weights_dims_i64_eq i o [k0, k1, k2] groups (Or.inr rfl)]
  by_cases hg : groups > 1
  · simp only [hg, if_true, valid_x_dim_i64, div64]
    simp only [List.getElem?_cons_zero, List.getElem?_cons_succ, Option.bind_eq_bind,
      Option.some_bind, h0a, h0b, h1a, h1b, h2a, h2b, if_false, and_false]
    rfl
  · simp only [hg, if_false, valid_x_dim_i64, div64]
    simp only [List.getElem?_cons_zero, List.getElem?_cons_succ, Option.bind_eq_bind,
      Option.some_bind, h0a, h0b, h1a, h1b, h2a, h2b, if_false, and_false]
    rfl

/-- When no intermediate result overflows, the `int64_t` placeholder extent is the one over
the mathematical integers. -/
theorem placeholder_extent_i64 (pl pr k dl s : Int) (hk : 1 ≤ k)
    (f1 : fits64 (2 * k)) (f2 : fits64 ((k - 1) * dl)) (f3 : fits64 (1 + (k - 1) * dl))
    (f4 : fits64 (pl + pr)) (f5 : fits64 (pl + pr - (1 + (k - 1) * dl)))
    (f6 : fits64 (Int.tdiv (pl + pr - (1 + (k - 1) * dl)) s + 2)) :
    max (add64 (Int.tdiv (sub64 (add64 pl pr) (add64 1 (mul64 (sub64 k 1) dl))) s) 2)
        (mul64 2 k) =
      max (Int.tdiv (pl + pr - (1 + (k - 1) * dl)) s + 2) (2 * k) := by
  have f0 : fits64 (k - 1) := by
    unfold fits64 at f1 ⊢
    omega
  have e0 : sub64 k 1 = k - 1 := wrap64_of_fits f0
  have e2 : mul64 (k - 1) dl = (k - 1) * dl := wrap64_of_fits f2
  have e3 : add64 1 ((k - 1) * dl) = 1 + (k - 1) * dl := wrap64_of_fits f3
  have e4 : add64 pl pr = pl + pr := wrap64_of_fits f4
  have e5 : sub64 (pl + pr) (1 + (k - 1) * dl) = pl + pr - (1 + (k - 1) * dl) :=
    wrap64_of_fits f5
  have e6 : add64 (Int.tdiv (pl + pr - (1 + (k - 1) * dl)) s) 2 =
      Int.tdiv (pl + pr - (1 + (k - 1) * dl)) s + 2 := wrap64_of_fits f6
  have e1 : mul64 2 k = 2 * k := wrap64_of_fits f1
  rw [e0, e2, e3, e4, e5, e6, e1]

/-! ## The claims -/

/-- Claim C1: for a rank-4 or rank-5 problem with a real source shape and `groups ≥ 1`,
`expected_weights_desc` returns shapes whose destination `y_dims` has the rank of the
source, the batch extent of the source, the channel extent `groups * oc_per_group` (the
backend output-channel count) and, on every spatial axis, the extent
`(input - 1) * stride + (1 + (kernel - 1) * dilation) - pad_l - pad_r`. -/
theorem forward_dst_shape (r : Nat)
    (weights_dims strides padding_l padding_r dilates src_dims : dims) (groups : Int)
    (hr : r = 4 ∨ r = 5) (hw : weights_dims.length = r) (hx : src_dims.length = r)
    (hst : strides.length = r - 2) (hpl : padding_l.length = r - 2)
    (hpr : padding_r.length = r - 2) (hdl : dilates.length = r - 2) (hg : 1 ≤ groups) :
    ∃ s, expected_weights_shapes weights_dims strides padding_l padding_r dilates groups
          src_dims = some s ∧
      s.x_dims = src_dims ∧
      s.y_dims.length = r ∧
      s.y_dims[0]? = src_dims[0]? ∧
      (∃ opg, weights_dims[1]? = some opg ∧ s.info.oc = groups * opg ∧
        s.y_dims[1]? = some (groups * opg)) ∧
      ∀ a, a < r - 2 → ∃ (x k st dl pl pr : Int),
        src_dims[a + 2]? = some x ∧ weights_dims[a + 2]? = some k ∧ strides[a]? = some st ∧
        dilates[a]? = some dl ∧ padding_l[a]? = some pl ∧ padding_r[a]? = some pr ∧
        s.y_dims[a + 2]? = some ((x - 1) * st + (1 + (k - 1) * dl) - pl - pr) := by
  rcases hr with rfl | rfl
  · obtain ⟨i, o, k0, k1, rfl⟩ := length_eq_four hw
    obtain ⟨n, c, h, w, rfl⟩ := length_eq_four hx
    obtain ⟨s0, s1, rfl⟩ := List.length_eq_two.mp hst
    obtain ⟨pl0, pl1, rfl⟩ := List.length_eq_two.mp hpl
    obtain ⟨pr0, pr1, rfl⟩ := List.length_eq_two.mp hpr
    obtain ⟨d0, d1, rfl⟩ := List.length_eq_two.mp hdl
    rw [shapes_real_four, expected_weights_dims_eq i o [k0, k1] groups (Or.inl rfl)]
    refine ⟨_, rfl, rfl, rfl, rfl, ⟨o, rfl, ?_, ?_⟩, ?_⟩
    · by_cases h1 : groups > 1
      · simp [h1]
      · have h2 : groups = 1 := by omega
        simp [h2]
    · by_cases h1 : groups > 1
      · simp [h1]
      · have h2 : groups = 1 := by omega
        simp [h2]
    · intro a ha
      have ha2 : a = 0 ∨ a = 1 := by omega
      rcases ha2 with rfl | rfl
      · exact ⟨h, k0, s0, d0, pl0, pr0, rfl, rfl, rfl, rfl, rfl, rfl, rfl⟩
      · exact ⟨w, k1, s1, d1, pl1, pr1, rfl, rfl, rfl, rfl, rfl, rfl, rfl⟩
  · obtain ⟨i, o, k0, k1, k2, rfl⟩ := length_eq_five hw
    obtain ⟨n, c, t, h, w, rfl⟩ := length_eq_five hx
    obtain ⟨s0, s1, s2, rfl⟩ := List.length_eq_three.mp hst
    obtain ⟨pl0, pl1, pl2, rfl⟩ := List.length_eq_three.mp hpl
    obtain ⟨pr0, pr1, pr2, rfl⟩ := List.length_eq_three.mp hpr
    obtain ⟨d0, d1, d2, rfl⟩ := List.length_eq_three.mp hdl
    rw [shapes_real_five, expected_weights_dims_eq i o [k0, k1, k2] groups (Or.inr rfl)]
    refine ⟨_, rfl, rfl, rfl, rfl, ⟨o, rfl, ?_, ?_⟩, ?_⟩
    · by_cases h1 : groups > 1
      · simp [h1]
      · have h2 : groups = 1 := by omega
        simp [h2]
    · by_cases h1 : groups > 1
      · simp [h1]
      · have h2 : groups = 1 := by omega
        simp [h2]
    · intro a ha
      have ha3 : a = 0 ∨ a = 1 ∨ a = 2 := by omega
      rcases ha3 with rfl | rfl | rfl
      · exact ⟨t, k0, s0, d0, pl0, pr0, rfl, rfl, rfl, rfl, rfl, rfl, rfl⟩
      · exact ⟨h, k1, s1, d1, pl1, pr1, rfl, rfl, rfl, rfl, rfl, rfl, rfl⟩
      · exact ⟨w, k2, s2, d2, pl2, pr2, rfl, rfl, rfl, rfl, rfl, rfl, rfl⟩

/-- Claim C1, the scenario of the claim: source `[1,4,8,8]`, weights `[4,8,3,3]`, stride
`[2,2]`, padding `[1,1]` on both sides, dilation `[1,1]` and one group give the
destination `[1,8,15,15]`. -/
theorem forward_dst_shape_witness :
    (∃ s, expected_weights_shapes [4, 8, 3, 3] [2, 2] [1, 1] [1, 1] [1, 1] 1 [1, 4, 8, 8]
          = some s ∧
      s.x_dims = [1, 4, 8, 8] ∧
      s.y_dims.length = 4 ∧
      s.y_dims[0]? = ([1, 4, 8, 8] : dims)[0]? ∧
      (∃ opg, ([4, 8, 3, 3] : dims)[1]? = some opg ∧ s.info.oc = 1 * opg ∧
        s.y_dims[1]? = some (1 * opg)) ∧
      ∀ a, a < 4 - 2 → ∃ (x k st dl pl pr : Int),
        ([1, 4, 8, 8] : dims)[a + 2]? = some x ∧ ([4, 8, 3, 3] : dims)[a + 2]? = some k ∧
        ([2, 2] : dims)[a]? = some st ∧ ([1, 1] : dims)[a]? = some dl ∧
        ([1, 1] : dims)[a]? = some pl ∧ ([1, 1] : dims)[a]? = some pr ∧
        s.y_dims[a + 2]? = some ((x - 1) * st + (1 + (k - 1) * dl) - pl - pr)) ∧
    (expected_weights_shapes [4, 8, 3, 3] [2, 2] [1, 1] [1, 1] [1, 1] 1 [1, 4, 8, 8]).map
      (fun s => s.y_dims) = some [1, 8, 15, 15] :=
  ⟨forward_dst_shape 4 [4, 8, 3, 3] [2, 2] [1, 1] [1, 1] [1, 1] [1, 4, 8, 8] 1
    (Or.inl rfl) rfl rfl rfl rfl rfl rfl (by decide), by decide⟩

/-- Claim C10: for weights of rank `r` in `{4, 5}`, any `groups`, strides, paddings and
dilations of length `r - 2` with non-zero strides, and `src_dims` empty or of length `r`,
the shape derivation of `expected_weights_desc` returns (no access is out of range and no
divisor is zero) and both `x_dims` and `y_dims` have length `r`. -/
theorem shape_derivation_total (r : Nat)
    (weights_dims strides padding_l padding_r dilates src_dims : dims) (groups : Int)
    (hr : r = 4 ∨ r = 5) (hw : weights_dims.length = r)
    (hst : strides.length = r - 2) (hpl : padding_l.length = r - 2)
    (hpr : padding_r.length = r - 2) (hdl : dilates.length = r - 2)
    (hnz : ∀ s ∈ strides, s ≠ 0) (hx : src_dims = [] ∨ src_dims.length = r) :
    ∃ s, expected_weights_shapes weights_dims strides padding_l padding_r dilates groups
          src_dims = some s ∧
      s.x_dims.length = r ∧ s.y_dims.length = r := by
  rcases hr with rfl | rfl
  · obtain ⟨i, o, k0, k1, rfl⟩ := length_eq_four hw
    obtain ⟨s0, s1, rfl⟩ := List.length_eq_two.mp hst
    obtain ⟨pl0, pl1, rfl⟩ := List.length_eq_two.mp hpl
    obtain ⟨pr0, pr1, rfl⟩ := List.length_eq_two.mp hpr
    obtain ⟨d0, d1, rfl⟩ := List.length_eq_two.mp hdl
    rcases hx with rfl | hx
    · rw [shapes_dummy_four _ _ _ _ _ _ _ _ _ _ _ _ _ (hnz s0 (by simp)) (hnz s1 (by simp)),
        expected_weights_dims_eq i o [k0, k1] groups (Or.inl rfl)]
      exact ⟨_, rfl, rfl, rfl⟩
    · obtain ⟨n, c, h, w, rfl⟩ := length_eq_four hx
      rw [shapes_real_four, expected_weights_dims_eq i o [k0, k1] groups (Or.inl rfl)]
      exact ⟨_, rfl, rfl, rfl⟩
  · obtain ⟨i, o, k0, k1, k2, rfl⟩ := length_eq_five hw
    obtain ⟨s0, s1, s2, rfl⟩ := List.length_eq_three.mp hst
    obtain ⟨pl0, pl1, pl2, rfl⟩ := List.length_eq_three.mp hpl
    obtain ⟨pr0, pr1, pr2, rfl⟩ := List.length_eq_three.mp hpr
    obtain ⟨d0, d1, d2, rfl⟩ := List.length_eq_three.mp hdl
    rcases hx with rfl | hx
    · rw [shapes_dummy_five _ _ _ _ _ _ _ _ _ _ _ _ _ _ _ _ _ _ (hnz s0 (by simp))
          (hnz s1 (by simp)) (hnz s2 (by simp)),
        expected_weights_dims_eq i o [k0, k1, k2] groups (Or.inr rfl)]
      exact ⟨_, rfl, rfl, rfl⟩
    · obtain ⟨n, c, t, h, w, rfl⟩ := length_eq_five hx
      rw [shapes_real_five, expected_weights_dims_eq i o [k0, k1, k2] groups (Or.inr rfl)]
      exact ⟨_, rfl, rfl, rfl⟩

/-- Claim C10 at 3-D spatial weights `[4,8,3,3,3]` with two groups and no source shape. -/
theorem shape_derivation_total_witness :
    ∃ s, expected_weights_shapes [4, 8, 3, 3, 3] [2, 2, 1] [1, 1, 0] [1, 1, 0] [1, 1, 1] 2 []
          = some s ∧
      s.x_dims.length = 5 ∧ s.y_dims.length = 5 :=
  shape_derivation_total 5 [4, 8, 3, 3, 3] [2, 2, 1] [1, 1, 0] [1, 1, 0] [1, 1, 1] [] 2
    (Or.inr rfl) rfl rfl rfl rfl rfl (by decide) (Or.inl rfl)

/-- Claim C5, as stated, fails: the source computes in `int64_t`.  For weights
`[1,1,2^62,1]`, strides `[1,1]`, no padding, dilation `[1,1]` (stride and kernel extent
both at least 1) the product `2 * kernel_extent` is `2^63`, which is not representable; the
placeholder extent of the first spatial axis comes out as `-4611686018427387902`, while the
claimed value `max (2 * k) (⌊(pad_l + pad_r - (1 + (k - 1) * dilation)) / stride⌋ + 2)` is
`9223372036854775808`. -/
theorem placeholder_src_shape_counterexample :
    (expected_weights_shapes_i64 [1, 1, 4611686018427387904, 1] [1, 1] [0, 0] [0, 0]
        [1, 1] 1 []).map (fun s => s.x_dims) =
      some [1, 1, -4611686018427387902, 2] ∧
    max (2 * 4611686018427387904 : Int)
        (⌊((0 + 0 - (1 + (4611686018427387904 - 1) * 1) : Int) : ℚ) / ((1 : Int) : ℚ)⌋ + 2) =
      9223372036854775808 ∧
    (-4611686018427387902 : Int) ≠ 9223372036854775808 := by
  refine ⟨by decide, ?_, by decide⟩
  norm_num

/-- Claim C5, amended: with the arithmetic of `int64_t`, when `expected_weights_desc` is
called with an empty `src_dims` (rank `r` in `{4, 5}`, no stride `0` or `-1`, so that no
division faults), it returns the placeholder source shape `[1, ic, e_0, ...]` of rank `r`
and a destination shape starting `[1, oc, ...]`, and on every spatial axis with
`stride ≥ 1` and `kernel_extent ≥ 1` on which no intermediate result overflows
(`2 * k`, `(k - 1) * dilation`, `1 + (k - 1) * dilation`, `pad_l + pad_r`, their difference
and the truncated quotient plus 2 are representable) the placeholder extent is
`max (2 * k) (⌊(pad_l + pad_r - (1 + (k - 1) * dilation)) / stride⌋ + 2)` with the
mathematical floor of the rational quotient. -/
theorem placeholder_src_shape_i64 (r : Nat)
    (weights_dims strides padding_l padding_r dilates : dims) (groups : Int)
    (hr : r = 4 ∨ r = 5) (hw : weights_dims.length = r)
    (hst : strides.length = r - 2) (hpl : padding_l.length = r - 2)
    (hpr : padding_r.length = r - 2) (hdl : dilates.length = r - 2)
    (hnz : ∀ s ∈ strides, s ≠ 0 ∧ s ≠ -1) :
    ∃ s, expected_weights_shapes_i64 weights_dims strides padding_l padding_r dilates groups
          [] = some s ∧
      expected_weights_dims_i64 weights_dims groups = some s.info ∧
      s.x_dims.length = r ∧
      s.x_dims[0]? = some 1 ∧ s.x_dims[1]? = some s.info.ic ∧
      s.y_dims[0]? = some 1 ∧ s.y_dims[1]? = some s.info.oc ∧
      ∀ a, a < r - 2 → ∃ (k st dl pl pr : Int),
        weights_dims[a + 2]? = some k ∧ strides[a]? = some st ∧
        dilates[a]? = some dl ∧ padding_l[a]? = some pl ∧ padding_r[a]? = some pr ∧
        (1 ≤ st → 1 ≤ k →
          fits64 (2 * k) → fits64 ((k - 1) * dl) → fits64 (1 + (k - 1) * dl) →
          fits64 (pl + pr) → fits64 (pl + pr - (1 + (k - 1) * dl)) →
          fits64 (Int.tdiv (pl + pr - (1 + (k - 1) * dl)) st + 2) →
          s.x_dims[a + 2]? = some
            (max (2 * k) (⌊((pl + pr - (1 + (k - 1) * dl) : Int) : ℚ) / (st : ℚ)⌋ + 2))) := by
  have key : ∀ (pl pr k dl st : Int), 1 ≤ st → 1 ≤ k →
      fits64 (2 * k) → fits64 ((k - 1) * dl) → fits64 (1 + (k - 1) * dl) →
      fits64 (pl + pr) → fits64 (pl + pr - (1 + (k - 1) * dl)) →
      fits64 (Int.tdiv (pl + pr - (1 + (k - 1) * dl)) st + 2) →
      some (max (add64 (Int.tdiv (sub64 (add64 pl pr) (add64 1 (mul64 (sub64 k 1) dl))) st) 2)
          (mul64 2 k)) =
        some (max (2 * k) (⌊((pl + pr - (1 + (k - 1) * dl) : Int) : ℚ) / (st : ℚ)⌋ + 2)) := by
    intro pl pr k dl st h1 h2 f1 f2 f3 f4 f5 f6
    rw [placeholder_extent_i64 pl pr k dl st h2 f1 f2 f3 f4 f5 f6,
      placeholder_floor _ k st h1 h2]
  rcases hr with rfl | rfl
  · obtain ⟨i, o, k0, k1, rfl⟩ := length_eq_four hw
    obtain ⟨s0, s1, rfl⟩ := List.length_eq_two.mp hst
    obtain ⟨pl0, pl1, rfl⟩ := List.length_eq_two.mp hpl
    obtain ⟨pr0, pr1, rfl⟩ := List.length_eq_two.mp hpr
    obtain ⟨d0, d1, rfl⟩ := List.length_eq_two.mp hdl
    rw [shapes_dummy_four_i64 _ _ _ _ _ _ _ _ _ _ _ _ _ (hnz s0 (by simp)) (hnz s1 (by simp)),
      expected_weights_dims_i64_eq i o [k0, k1] groups (Or.inl rfl)]
    refine ⟨_, rfl, rfl, rfl, rfl, rfl, rfl, rfl, ?_⟩
    intro a ha
    have ha2 : a = 0 ∨ a = 1 := by omega
    rcases ha2 with rfl | rfl
    · exact ⟨k0, s0, d0, pl0, pr0, rfl, rfl, rfl, rfl, rfl, key pl0 pr0 k0 d0 s0⟩
    · exact ⟨k1, s1, d1, pl1, pr1, rfl, rfl, rfl, rfl, rfl, key pl1 pr1 k1 d1 s1⟩
  · obtain ⟨i, o, k0, k1, k2, rfl⟩ := length_eq_five hw
    obtain ⟨s0, s1, s2, rfl⟩ := List.length_eq_three.mp hst
    obtain ⟨pl0, pl1, pl2, rfl⟩ := List.length_eq_three.mp hpl
    obtain ⟨pr0, pr1, pr2, rfl⟩ := List.length_eq_three.mp hpr
    obtain ⟨d0, d1, d2, rfl⟩ := List.length_eq_three.mp hdl
    rw [shapes_dummy_five_i64 _ _ _ _ _ _ _ _ _ _ _ _ _ _ _ _ _ _ (hnz s0 (by simp))
        (hnz s1 (by simp)) (hnz s2 (by simp)),
      expected_weights_dims_i64_eq i o [k0, k1, k2] groups (Or.inr rfl)]
    refine ⟨_, rfl, rfl, rfl, rfl, rfl, rfl, rfl, ?_⟩
    intro a ha
    have ha3 : a = 0 ∨ a = 1 ∨ a = 2 := by omega
    rcases ha3 with rfl | rfl | rfl
    · exact ⟨k0, s0, d0, pl0, pr0, rfl, rfl, rfl, rfl, rfl, key pl0 pr0 k0 d0 s0⟩
    · exact ⟨k1, s1, d1, pl1, pr1, rfl, rfl, rfl, rfl, rfl, key pl1 pr1 k1 d1 s1⟩
    · exact ⟨k2, s2, d2, pl2, pr2, rfl, rfl, rfl, rfl, rfl, key pl2 pr2 k2 d2 s2⟩

/-- Claim C5, amended, at weights `[4,8,3,3]`, stride `[2,2]`, no padding: the quotient
`-3 / 2` is negative and not exact, so truncation and floor differ there, and the
placeholder source shape is `[1,4,6,6]`. -/
theorem placeholder_src_shape_i64_witness :
    (∃ s, expected_weights_shapes_i64 [4, 8, 3, 3] [2, 2] [0, 0] [0, 0] [1, 1] 1 [] = some s ∧
      expected_weights_dims_i64 [4, 8, 3, 3] 1 = some s.info ∧
      s.x_dims.length = 4 ∧
      s.x_dims[0]? = some 1 ∧ s.x_dims[1]? = some s.info.ic ∧
      s.y_dims[0]? = some 1 ∧ s.y_dims[1]? = some s.info.oc ∧
      ∀ a, a < 4 - 2 → ∃ (k st dl pl pr : Int),
        ([4, 8, 3, 3] : dims)[a + 2]? = some k ∧ ([2, 2] : dims)[a]? = some st ∧
        ([1, 1] : dims)[a]? = some dl ∧ ([0, 0] : dims)[a]? = some pl ∧
        ([0, 0] : dims)[a]? = some pr ∧
        (1 ≤ st → 1 ≤ k →
          fits64 (2 * k) → fits64 ((k - 1) * dl) → fits64 (1 + (k - 1) * dl) →
          fits64 (pl + pr) → fits64 (pl + pr - (1 + (k - 1) * dl)) →
          fits64 (Int.tdiv (pl + pr - (1 + (k - 1) * dl)) st + 2) →
          s.x_dims[a + 2]? = some
            (max (2 * k) (⌊((pl + pr - (1 + (k - 1) * dl) : Int) : ℚ) / (st : ℚ)⌋ + 2)))) ∧
    (expected_weights_shapes_i64 [4, 8, 3, 3] [2, 2] [0, 0] [0, 0] [1, 1] 1 []).map
        (fun s => s.x_dims) = some [1, 4, 6, 6] ∧
    (1 ≤ (2 : Int) ∧ 1 ≤ (3 : Int) ∧ fits64 (2 * 3) ∧ fits64 ((3 - 1) * 1) ∧
      fits64 (1 + (3 - 1) * 1) ∧ fits64 (0 + 0) ∧ fits64 (0 + 0 - (1 + (3 - 1) * 1)) ∧
      fits64 (Int.tdiv (0 + 0 - (1 + (3 - 1) * 1)) 2 + 2)) :=
  ⟨placeholder_src_shape_i64 4 [4, 8, 3, 3] [2, 2] [0, 0] [0, 0] [1, 1] 1
    (Or.inl rfl) rfl rfl rfl rfl rfl (by decide), by decide, by decide⟩

/-- Claim C8: in the placeholder case of `expected_weights_desc` (rank `r` in `{4, 5}`,
non-zero strides), on every spatial axis with `stride ≥ 1` and `kernel_extent ≥ 1`, for
all integer paddings and dilation, the placeholder extent is
`e = max ((pad_l + pad_r - (1 + (k - 1) * dilation)) / stride + 2) (2 * k)` with truncating
division and the derived output extent
`(e - 1) * stride + (1 + (k - 1) * dilation) - pad_l - pad_r` is strictly positive. -/
theorem placeholder_dst_positive (r : Nat)
    (weights_dims strides padding_l padding_r dilates : dims) (groups : Int)
    (hr : r = 4 ∨ r = 5) (hw : weights_dims.length = r)
    (hst : strides.length = r - 2) (hpl : padding_l.length = r - 2)
    (hpr : padding_r.length = r - 2) (hdl : dilates.length = r - 2)
    (hnz : ∀ s ∈ strides, s ≠ 0) :
    ∃ s, expected_weights_shapes weights_dims strides padding_l padding_r dilates groups []
          = some s ∧
      ∀ a, a < r - 2 → ∃ (k st dl pl pr e : Int),
        weights_dims[a + 2]? = some k ∧ strides[a]? = some st ∧
        dilates[a]? = some dl ∧ padding_l[a]? = some pl ∧ padding_r[a]? = some pr ∧
        e = max (Int.tdiv (pl + pr - (1 + (k - 1) * dl)) st + 2) (2 * k) ∧
        s.x_dims[a + 2]? = some e ∧
        s.y_dims[a + 2]? = some ((e - 1) * st + (1 + (k - 1) * dl) - pl - pr) ∧
        (1 ≤ st → 1 ≤ k → 0 < (e - 1) * st + (1 + (k - 1) * dl) - pl - pr) := by
  rcases hr with rfl | rfl
  · obtain ⟨i, o, k0, k1, rfl⟩ := length_eq_four hw
    obtain ⟨s0, s1, rfl⟩ := List.length_eq_two.mp hst
    obtain ⟨pl0, pl1, rfl⟩ := List.length_eq_two.mp hpl
    obtain ⟨pr0, pr1, rfl⟩ := List.length_eq_two.mp hpr
    obtain ⟨d0, d1, rfl⟩ := List.length_eq_two.mp hdl
    rw [shapes_dummy_four _ _ _ _ _ _ _ _ _ _ _ _ _ (hnz s0 (by simp)) (hnz s1 (by simp)),
      expected_weights_dims_eq i o [k0, k1] groups (Or.inl rfl)]
    refine ⟨_, rfl, ?_⟩
    intro a ha
    have ha2 : a = 0 ∨ a = 1 := by omega
    rcases ha2 with rfl | rfl
    · exact ⟨k0, s0, d0, pl0, pr0, _, rfl, rfl, rfl, rfl, rfl, rfl, rfl, rfl, fun h1 _ =>
        placeholder_out_pos pl0 pr0 k0 d0 s0 h1⟩
    · exact ⟨k1, s1, d1, pl1, pr1, _, rfl, rfl, rfl, rfl, rfl, rfl, rfl, rfl, fun h1 _ =>
        placeholder_out_pos pl1 pr1 k1 d1 s1 h1⟩
  · obtain ⟨i, o, k0, k1, k2, rfl⟩ := length_eq_five hw
    obtain ⟨s0, s1, s2, rfl⟩ := List.length_eq_three.mp hst
    obtain ⟨pl0, pl1, pl2, rfl⟩ := List.length_eq_three.mp hpl
    obtain ⟨pr0, pr1, pr2, rfl⟩ := List.length_eq_three.mp hpr
    obtain ⟨d0, d1, d2, rfl⟩ := List.length_eq_three.mp hdl
    rw [shapes_dummy_five _ _ _ _ _ _ _ _ _ _ _ _ _ _ _ _ _ _ (hnz s0 (by simp))
        (hnz s1 (by simp)) (hnz s2 (by simp)),
      expected_weights_dims_eq i o [k0, k1, k2] groups (Or.inr rfl)]
    refine ⟨_, rfl, ?_⟩
    intro a ha
    have ha3 : a = 0 ∨ a = 1 ∨ a = 2 := by omega
    rcases ha3 with rfl | rfl | rfl
    · exact ⟨k0, s0, d0, pl0, pr0, _, rfl, rfl, rfl, rfl, rfl, rfl, rfl, rfl, fun h1 _ =>
        placeholder_out_pos pl0 pr0 k0 d0 s0 h1⟩
    · exact ⟨k1, s1, d1, pl1, pr1, _, rfl, rfl, rfl, rfl, rfl, rfl, rfl, rfl, fun h1 _ =>
        placeholder_out_pos pl1 pr1 k1 d1 s1 h1⟩
    · exact ⟨k2, s2, d2, pl2, pr2, _, rfl, rfl, rfl, rfl, rfl, rfl, rfl, rfl, fun h1 _ =>
        placeholder_out_pos pl2 pr2 k2 d2 s2 h1⟩

/-- Claim C8 at weights `[4,8,3,3]`, stride `[2,3]`, padding `[5,0]` and `[4,1]`,
dilation `[2,1]`. -/
theorem placeholder_dst_positive_witness :
    ∃ s, expected_weights_shapes [4, 8, 3, 3] [2, 3] [5, 0] [4, 1] [2, 1] 1 [] = some s ∧
      ∀ a, a < 4 - 2 → ∃ (k st dl pl pr e : Int),
        ([4, 8, 3, 3] : dims)[a + 2]? = some k ∧ ([2, 3] : dims)[a]? = some st ∧
        ([2, 1] : dims)[a]? = some dl ∧ ([5, 0] : dims)[a]? = some pl ∧
        ([4, 1] : dims)[a]? = some pr ∧
        e = max (Int.tdiv (pl + pr - (1 + (k - 1) * dl)) st + 2) (2 * k) ∧
        s.x_dims[a + 2]? = some e ∧
        s.y_dims[a + 2]? = some ((e - 1) * st + (1 + (k - 1) * dl) - pl - pr) ∧
        (1 ≤ st → 1 ≤ k → 0 < (e - 1) * st + (1 + (k - 1) * dl) - pl - pr) :=
  placeholder_dst_positive 4 [4, 8, 3, 3] [2, 3] [5, 0] [4, 1] [2, 1] 1
    (Or.inl rfl) rfl rfl rfl rfl rfl (by decide)

/-- Claim C2, as stated, fails: for weights `[3,2,1,1]` and two groups (the group count
does not divide the input channels) the forward transform followed by the inverse one
yields the shape `[2,2,1,1]`. -/
theorem weight_transform_roundtrip_counterexample :
    ((convolution_transpose_backward_weights.diff_weights_desc [3, 2, 1, 1]
        data_type.f32 2).bind
      (fun q => convolution_transpose_backward_weights.recover_diff_weights q 2)).map
        desc.get_dims = some [2, 2, 1, 1] ∧
    ((convolution_transpose_backward_weights.diff_weights_desc [3, 2, 1, 1]
        data_type.f32 2).bind
      (fun q => convolution_transpose_backward_weights.recover_diff_weights q 2)).map
        desc.get_dims ≠ some [3, 2, 1, 1] := by
  constructor <;> decide

/-- Claim C2, amended: for weights `[in_ch, out_ch, spatial...]` and a group count that
divides `in_ch` whenever it exceeds 1, the forward transform of
`convolution_transpose_backward_weights::compute_impl` returns a descriptor, the inverse
transform applied to any plan descriptor of that shape returns the original shape, and
transposing the same two axes twice maps every element position to itself. -/
theorem weight_transform_roundtrip (in_ch out_ch : Int) (spatial : dims) (dtype : data_type)
    (groups : Int) (hdiv : 1 < groups → groups ∣ in_ch) :
    ∃ q, convolution_transpose_backward_weights.diff_weights_desc
          (in_ch :: out_ch :: spatial) dtype groups = some q ∧
      (∀ p : desc, p.internal_dims = q.internal_dims →
        ∃ r, convolution_transpose_backward_weights.recover_diff_weights p groups = some r ∧
          r.get_dims = in_ch :: out_ch :: spatial) ∧
      (∀ idx : List Nat, idx.length = q.internal_dims.length →
        (if groups > 1 then
          (transpose_index idx 1 2).bind (fun j => transpose_index j 1 2)
        else
          (transpose_index idx 0 1).bind (fun j => transpose_index j 0 1)) = some idx) := by
  by_cases hg : groups > 1
  · have hne : groups ≠ 0 := by omega
    have hmul : groups * Int.tdiv in_ch groups = in_ch := Int.mul_tdiv_cancel' (hdiv hg)
    refine ⟨⟨groups :: out_ch :: Int.tdiv in_ch groups :: spatial, dtype, tag.any, groups⟩,
      ?_, ?_, ?_⟩
    · simp [convolution_transpose_backward_weights.diff_weights_desc, desc.to_grouped,
        desc.transpose, desc.of_dims_tag, utils.group_dims, checked_div, swap_elems, hg, hne]
    · rintro ⟨pd, pt, pl, pg⟩ hp
      simp only at hp
      subst hp
      refine ⟨⟨groups :: Int.tdiv in_ch groups :: out_ch :: spatial, pt, pl, groups⟩, ?_, ?_⟩
      · simp [convolution_transpose_backward_weights.recover_diff_weights, desc.with_groups,
          desc.transpose, swap_elems, hg]
      · simp [desc.get_dims, hg, hmul]
    · intro idx hidx
      simp only [List.length_cons] at hidx
      simp only [hg, if_true, transpose_index]
      exact swap_elems_twice idx 1 2 (by omega) (by omega)
  · refine ⟨⟨out_ch :: in_ch :: spatial, dtype, tag.any, 1⟩, ?_, ?_, ?_⟩
    · simp [convolution_transpose_backward_weights.diff_weights_desc, desc.transpose,
        desc.of_dims_tag, swap_elems, hg]
    · rintro ⟨pd, pt, pl, pg⟩ hp
      simp only at hp
      subst hp
      refine ⟨⟨in_ch :: out_ch :: spatial, pt, pl, groups⟩, ?_, ?_⟩
      · simp [convolution_transpose_backward_weights.recover_diff_weights, desc.with_groups,
          desc.transpose, swap_elems, hg]
      · simp [desc.get_dims, hg]
    · intro idx hidx
      simp only [List.length_cons] at hidx
      simp only [hg, if_false, transpose_index]
      exact swap_elems_twice idx 0 1 (by omega) (by omega)

/-- Claim C2, amended, at weights `[4,8,3,3]` with two groups. -/
theorem weight_transform_roundtrip_witness :
    ∃ q, convolution_transpose_backward_weights.diff_weights_desc
          (4 :: 8 :: [3, 3]) data_type.f32 2 = some q ∧
      (∀ p : desc, p.internal_dims = q.internal_dims →
        ∃ r, convolution_transpose_backward_weights.recover_diff_weights p 2 = some r ∧
          r.get_dims = 4 :: 8 :: [3, 3]) ∧
      (∀ idx : List Nat, idx.length = q.internal_dims.length →
        (if (2 : Int) > 1 then
          (transpose_index idx 1 2).bind (fun j => transpose_index j 1 2)
        else
          (transpose_index idx 0 1).bind (fun j => transpose_index j 0 1)) = some idx) :=
  weight_transform_roundtrip 4 8 [3, 3] data_type.f32 2 (fun _ => by decide)

/-- Claim C7, as stated, fails: for weights `[4,8,3,3]` and two groups the grouped split
is `[2,2,8,3,3]`, not `[2,2,4,3,3]`, and the transposed backend shape is `[2,8,2,3,3]`,
not `[2,4,2,3,3]`. -/
theorem grouped_scenario_counterexample :
    ((desc.of_dims_tag [4, 8, 3, 3] data_type.f32 tag.any).to_grouped 2).map
        (fun d => d.internal_dims) ≠ some [2, 2, 4, 3, 3] ∧
      (convolution_transpose_backward_weights.diff_weights_desc [4, 8, 3, 3]
        data_type.f32 2).map (fun d => d.internal_dims) ≠ some [2, 4, 2, 3, 3] := by
  constructor <;> decide

/-- Claim C7, amended: for weights `[4,8,3,3]` and two groups the weight-gradient
descriptor goes through the grouped split `[2,2,8,3,3]`, has the backend shape
`[2,8,2,3,3]` after the transpose of axes 1 and 2, and the inverse transform applied to a
plan descriptor of that shape, whatever its data type and layout, restores `[4,8,3,3]`. -/
theorem grouped_scenario :
    ((desc.of_dims_tag [4, 8, 3, 3] data_type.f32 tag.any).to_grouped 2).map
        (fun d => d.internal_dims) = some [2, 2, 8, 3, 3] ∧
      (convolution_transpose_backward_weights.diff_weights_desc [4, 8, 3, 3]
        data_type.f32 2).map (fun d => d.internal_dims) = some [2, 8, 2, 3, 3] ∧
      ∀ (dt : data_type) (l : tag) (g : Int),
        (convolution_transpose_backward_weights.recover_diff_weights
          ⟨[2, 8, 2, 3, 3], dt, l, g⟩ 2).map desc.get_dims = some [4, 8, 3, 3] := by
  refine ⟨by decide, by decide, ?_⟩
  intro dt l g
  rfl

/-- Claim C4: in `get_primitive_desc`, when the source or the weights descriptor is `nhwc`
the source and destination queries are both `nhwc`; otherwise, when one of them is
`ndhwc`, both queries are `ndhwc`; otherwise both are `any`.  The weights query is always
`any`; the bias query is `any` when a bias is present and the empty descriptor when it is
absent.  Shapes and data types are not changed, and the arguments handed to the backend
are these queries, with a bias only when one is present. -/
theorem query_layouts (with_bias : Bool) (src_desc weights_desc bias_desc dst_desc : desc)
    (strides dilates padding_l padding_r : dims) :
    ((src_desc.layout = tag.nhwc ∨ weights_desc.layout = tag.nhwc) →
      (get_desc_queries with_bias src_desc weights_desc bias_desc dst_desc).src_desc_query
          = src_desc.to_format tag.nhwc ∧
        (get_desc_queries with_bias src_desc weights_desc bias_desc dst_desc).dst_desc_query
          = dst_desc.to_format tag.nhwc) ∧
    (¬ (src_desc.layout = tag.nhwc ∨ weights_desc.layout = tag.nhwc) →
      (src_desc.layout = tag.ndhwc ∨ weights_desc.layout = tag.ndhwc) →
      (get_desc_queries with_bias src_desc weights_desc bias_desc dst_desc).src_desc_query
          = src_desc.to_format tag.ndhwc ∧
        (get_desc_queries with_bias src_desc weights_desc bias_desc dst_desc).dst_desc_query
          = dst_desc.to_format tag.ndhwc) ∧
    (¬ (src_desc.layout = tag.nhwc ∨ weights_desc.layout = tag.nhwc) →
      ¬ (src_desc.layout = tag.ndhwc ∨ weights_desc.layout = tag.ndhwc) →
      (get_desc_queries with_bias src_desc weights_desc bias_desc dst_desc).src_desc_query
          = src_desc.to_format tag.any ∧
        (get_desc_queries with_bias src_desc weights_desc bias_desc dst_desc).dst_desc_query
          = dst_desc.to_format tag.any) ∧
    (get_desc_queries with_bias src_desc weights_desc bias_desc dst_desc).weights_desc_query
      = weights_desc.to_format tag.any ∧
    (get_desc_queries with_bias src_desc weights_desc bias_desc dst_desc).bias_desc_query
      = (if with_bias then bias_desc.to_format tag.any else desc.empty) ∧
    (∀ (d : desc) (t : tag), (d.to_format t).layout = t ∧
      (d.to_format t).internal_dims = d.internal_dims ∧ (d.to_format t).dtype = d.dtype) ∧
    get_primitive_desc_args with_bias src_desc weights_desc bias_desc dst_desc
        strides dilates padding_l padding_r =
      { src_desc :=
          (get_desc_queries with_bias src_desc weights_desc bias_desc dst_desc).src_desc_query
        weights_desc := weights_desc.to_format tag.any
        bias_desc := if with_bias then some (bias_desc.to_format tag.any) else none
        dst_desc :=
          (get_desc_queries with_bias src_desc weights_desc bias_desc dst_desc).dst_desc_query
        strides := strides
        dilates := dilates
        padding_l := padding_l
        padding_r := padding_r } := by
  refine ⟨?_, ?_, ?_, rfl, rfl, fun d t => ⟨rfl, rfl, rfl⟩, ?_⟩
  · intro h
    have hb : (src_desc.is_nhwc || weights_desc.is_nhwc) = true := by
      simpa [desc.is_nhwc] using h
    simp [get_desc_queries, hb]
  · intro h1 h2
    have hb1 : (src_desc.is_nhwc || weights_desc.is_nhwc) = false := by
      simpa [desc.is_nhwc] using h1
    have hb2 : (src_desc.is_ndhwc || weights_desc.is_ndhwc) = true := by
      simpa [desc.is_ndhwc] using h2
    simp [get_desc_queries, hb1, hb2]
  · intro h1 h2
    have hb1 : (src_desc.is_nhwc || weights_desc.is_nhwc) = false := by
      simpa [desc.is_nhwc] using h1
    have hb2 : (src_desc.is_ndhwc || weights_desc.is_ndhwc) = false := by
      simpa [desc.is_ndhwc] using h2
    simp [get_desc_queries, hb1, hb2]
  · cases with_bias <;> rfl

/-- Claim C9: `convolution_transpose_backward_data::compute` derives the layout tag from
`diff_dst` alone (`nhwc`, else `ndhwc`, else `any`).  Its `diff_dst` descriptor is that of
`diff_dst` with this tag, its gradient-of-source descriptor has the requested shape, the
data type of `diff_dst` and this tag, and its weights descriptor is that of the weights
with layout `any`.  The forward hint is `get_primitive_desc` on the gradient of the source
as source and `diff_dst` as destination; it derives the same tag again, so its source,
weights and destination descriptors are exactly these three, and its argument list is the
one of the backward-data primitive. -/
theorem backward_data_hint_consistent (diff_dst weights_ : desc)
    (diff_src_dims strides padding_l padding_r dilates_ : dims) :
    ∃ c, convolution_transpose_backward_data.compute diff_dst weights_ diff_src_dims strides
          padding_l padding_r dilates_ = c ∧
      c.format_tag = (if diff_dst.layout = tag.nhwc then tag.nhwc
        else if diff_dst.layout = tag.ndhwc then tag.ndhwc else tag.any) ∧
      c.diff_dst_desc = diff_dst.to_format c.format_tag ∧
      c.diff_dst_desc.layout = c.format_tag ∧
      c.diff_dst_desc.internal_dims = diff_dst.internal_dims ∧
      c.diff_dst_desc.dtype = diff_dst.dtype ∧
      c.diff_src_desc = desc.of_dims_tag diff_src_dims diff_dst.dtype c.format_tag ∧
      c.diff_src_desc.layout = c.format_tag ∧
      c.diff_src_desc.internal_dims = diff_src_dims ∧
      c.weights_desc = weights_.to_format_any ∧
      c.weights_desc.layout = tag.any ∧
      c.weights_desc.internal_dims = weights_.internal_dims ∧
      c.forward_hints = get_primitive_desc_args false c.diff_src_desc c.weights_desc
        desc.empty c.diff_dst_desc strides dilates_ padding_l padding_r ∧
      (get_desc_queries false c.diff_src_desc c.weights_desc desc.empty
        c.diff_dst_desc).format_tag = c.format_tag ∧
      c.forward_hints.src_desc = c.diff_src_desc ∧
      c.forward_hints.weights_desc = c.weights_desc ∧
      c.forward_hints.bias_desc = none ∧
      c.forward_hints.dst_desc = c.diff_dst_desc ∧
      c.pd_args =
        { src_desc := c.diff_src_desc
          weights_desc := c.weights_desc
          bias_desc := none
          dst_desc := c.diff_dst_desc
          strides := strides
          dilates := dilates_
          padding_l := padding_l
          padding_r := padding_r } ∧
      c.forward_hints = c.pd_args := by
  refine ⟨_, rfl, ?_⟩
  rcases diff_dst with ⟨dd, dt, l, g⟩
  rcases weights_ with ⟨wd, wt, wl, wg⟩
  cases l <;>
    simp [convolution_transpose_backward_data.compute, get_primitive_desc_args,
      get_desc_queries, desc.is_nhwc, desc.is_ndhwc, desc.to_format, desc.to_format_any,
      desc.of_dims_tag, desc.get_data_type]

end ideep
